import Mathlib

/-!
Shallow embedding of `main.go` of the cloudbuildnotifier repository.

The program subscribes to a pub/sub topic of CI build events. Per message the
callback in `pullMsgs` acknowledges, JSON-decodes the payload into a
`CloudBuildInfo`, scans the steps for the failing step, fetches commit
metadata from the GitHub API (`GetGithubInfo`), formats a notification
message depending on repo / branch / status, and posts it to a chat webhook
(`PushMessageToChatHangout`).

Network effects are modelled by explicit oracles: the GitHub HTTP response is
an `Option GithubResponse` (`none` = transport error from `client.Do`) and the
webhook transport is a function from the posted JSON body to an
`Option Nat` status code (`none` = transport error). Go mutable state that
outlives one callback invocation (the `failureStep` and `message` variables
declared in `pullMsgs` outside the callback closure) is threaded explicitly as
a `LoopState`. A Go runtime panic is a distinguished outcome constructor.
-/

namespace CloudBuildNotifier

/-- Build step of a cloud-build event: the Go code reads `step.ID` and
`step.Status` (`CloudBuildInfo.Steps` elements in `main.go`). -/
structure Step where
  ID : String
  Status : String
deriving DecidableEq, Repr, Inhabited

/-- Substitutions block of a build event. The Go code reads the fields
`COMMITSHA`, `REPONAME`, `BRANCHNAME`, `NAMESPACE` of
`cloudBuildInfo.Substitutions`. -/
structure Substitutions where
  COMMITSHA : String
  REPONAME : String
  BRANCHNAME : String
  NAMESPACE : String
deriving DecidableEq, Repr, Inhabited

/-- Decoded build event (`CloudBuildInfo` in the Go code): overall status,
ordered list of steps, and the substitutions metadata. -/
structure CloudBuildInfo where
  Status : String
  Steps : List Step
  Substitutions : Substitutions
deriving DecidableEq, Repr, Inhabited

/-- Name/email pair, as read from `githubData.Author` / `githubData.Committer`. -/
structure GitUser where
  Name : String
  Email : String
deriving DecidableEq, Repr, Inhabited

/-- Commit metadata returned by the GitHub API (`GithubInfo` in the Go code):
the code reads `Message`, `HTML_URL`, `Author` and `Committer`. -/
structure GithubInfo where
  Message : String
  HTML_URL : String
  Author : GitUser
  Committer : GitUser
deriving DecidableEq, Repr, Inhabited

/-- Failure-locator loop of `pullMsgs` (lines 54-58 of `main.go`), starting
from the current value `init` of the mutated variable `failureStep`:

    for _, step := range cloudBuildInfo.Steps {
        if step.Status == "FAILURE" { failureStep = step.ID }
    }

Every step is visited; there is no `break`, so a later failing step
overwrites an earlier one. -/
def locateFailureStepFrom (init : String) : List Step → String
  | [] => init
  | s :: rest => locateFailureStepFrom (if s.Status = "FAILURE" then s.ID else init) rest

/-- The failure locator applied to one event in isolation: the loop of
`pullMsgs` run with the `failureStep` variable empty, as it is when the
subscription starts. -/
def locateFailureStep (steps : List Step) : String :=
  locateFailureStepFrom "" steps

/-- Build-type closure of the `ProjectStrand` failure branch
(lines 78-87 of `main.go`). -/
def buildType (ev : CloudBuildInfo) : String :=
  if ev.Substitutions.NAMESPACE = "test" then "unit-testing"
  else if ev.Substitutions.BRANCHNAME = "dev" then "nightly"
  else "production"

/-- Detail block shared by all three message templates: the literal segments
of the Go `fmt.Sprintf` format strings interleaved with the field values
(`Repo`, `Branch`, commit message, commit URL, author and committer). -/
def detailBlock (ev : CloudBuildInfo) (gh : GithubInfo) : String :=
  "```Repo: " ++ ev.Substitutions.REPONAME ++
  "\nBranch: " ++ ev.Substitutions.BRANCHNAME ++
  "\nCommit message: " ++ gh.Message ++
  "\nCommit Url: " ++ gh.HTML_URL ++
  "\nAuthor: " ++ (gh.Author.Name ++ "(" ++ gh.Author.Email ++ ")") ++
  "\nCommitter:" ++ (gh.Committer.Name ++ "(" ++ gh.Committer.Email ++ ")") ++
  "\n```"

/-- Success template of the `superset` branch (line 68 of `main.go`). -/
def supersetSuccessMessage (ev : CloudBuildInfo) (gh : GithubInfo) : String :=
  "The new version of *actable-dev* was available in https://" ++ "dev-nightly" ++
  ".actable.ai. Detail infomations: " ++ detailBlock ev gh

/-- Failure template of the `superset` branch (line 72 of `main.go`);
`fs` is the value of the `failureStep` variable. -/
def supersetFailureMessage (ev : CloudBuildInfo) (fs : String) (gh : GithubInfo) : String :=
  "The deployment of *actable-dev* on https://" ++ "dev-nightly" ++
  ".actable.ai has been stopped with status *" ++ ev.Status ++ "* at step *" ++ fs ++
  "*. Detail infomations: " ++ detailBlock ev gh

/-- Failure template of the `ProjectStrand` branch (line 88 of `main.go`);
`bt` is the build-type label, `fs` the `failureStep` value. -/
def projectStrandMessage (bt : String) (ev : CloudBuildInfo) (fs : String)
    (gh : GithubInfo) : String :=
  "Cloud build for *" ++ bt ++ "* has been finished with status *" ++ ev.Status ++
  "* at step *" ++ fs ++ "*. Detail infomations: " ++ detailBlock ev gh

/-- Formatter branch of the callback (lines 63-93 of `main.go`): `some m`
exactly when one of the `message = fmt.Sprintf(...)` assignments runs,
`none` when the `message` variable is left untouched. The outer guard
requires the branch name to be `dev` or `master`; inside it the switch is on
the repo name, and only `superset` (SUCCESS or FAILURE) and `ProjectStrand`
(FAILURE only) produce a message. The Sprintf results are never the empty
string, so `some m` implies `m` is nonempty. -/
def formatMessage (ev : CloudBuildInfo) (fs : String) (gh : GithubInfo) : Option String :=
  if ev.Substitutions.BRANCHNAME = "dev" ∨ ev.Substitutions.BRANCHNAME = "master" then
    match ev.Substitutions.REPONAME with
    | "superset" =>
        if ev.Status = "SUCCESS" then some (supersetSuccessMessage ev gh)
        else if ev.Status = "FAILURE" then some (supersetFailureMessage ev fs gh)
        else none
    | "ProjectStrand" =>
        if ev.Status = "FAILURE" then
          some (projectStrandMessage (buildType ev) ev fs gh)
        else none
    | _ => none
  else none

/-- JSON values, as far as the payloads of this program need them: the inbound
build-event payload, the GitHub response body and the webhook request body are
all built from strings, arrays and objects (spec section 6). -/
inductive J where
  | str (s : String)
  | arr (xs : List J)
  | obj (fields : List (String × J))

instance : Inhabited J := ⟨.str ""⟩

/-- Field lookup in a JSON object; `none` on a non-object or a missing key. -/
def J.get (j : J) (k : String) : Option J :=
  match j with
  | .obj fields => fields.lookup k
  | _ => none

/-- String-typed field lookup: the field must be present and be a string. -/
def J.getStr (j : J) (k : String) : Option String :=
  match j.get k with
  | some (.str s) => some s
  | _ => none

/-- Modelled from the spec: the Go declaration of the step struct and its JSON
tags is not under `src/` (only `main.go` is), so the field mapping
`{id, status}` is taken from spec section 6's inbound payload shape. -/
def decodeStep (j : J) : Option Step :=
  match j.getStr "id", j.getStr "status" with
  | some i, some s => some ⟨i, s⟩
  | _, _ => none

/-- Modelled from the spec: the substitutions JSON keys `COMMIT_SHA`,
`REPO_NAME`, `BRANCH_NAME`, `NAMESPACE` come from spec section 6, the Go
struct declaration being absent from `src/`. -/
def decodeSubs (j : J) : Option Substitutions :=
  match j.getStr "COMMIT_SHA", j.getStr "REPO_NAME",
        j.getStr "BRANCH_NAME", j.getStr "NAMESPACE" with
  | some c, some r, some b, some n => some ⟨c, r, b, n⟩
  | _, _, _, _ => none

/-- Element-wise decoding of the steps array, in order; `none` as soon as one
element is not a well-formed step object. -/
def decodeSteps : List J → Option (List Step)
  | [] => some []
  | x :: xs =>
      match decodeStep x, decodeSteps xs with
      | some s, some rest => some (s :: rest)
      | _, _ => none

/-- Modelled from the spec: decoder of a well-formed inbound payload
`{ status, steps: [{id,status}], substitutions: {...} }` (spec section 6);
the `CloudBuildInfo` struct declaration with its JSON tags is not under
`src/`. `none` when a required field is missing or ill-typed. -/
def decodeBuild (j : J) : Option CloudBuildInfo :=
  match j.getStr "status", j.get "steps", j.get "substitutions" with
  | some st, some (.arr xs), some sj =>
      match decodeSteps xs, decodeSubs sj with
      | some steps, some subs => some ⟨st, steps, subs⟩
      | _, _ => none
  | _, _, _ => none

/-- Re-encoder of a step, inverse of `decodeStep` on the same JSON keys. -/
def encodeStep (s : Step) : J :=
  .obj [("id", .str s.ID), ("status", .str s.Status)]

/-- Re-encoder of the substitutions block, on the keys of `decodeSubs`. -/
def encodeSubs (s : Substitutions) : J :=
  .obj [("COMMIT_SHA", .str s.COMMITSHA), ("REPO_NAME", .str s.REPONAME),
        ("BRANCH_NAME", .str s.BRANCHNAME), ("NAMESPACE", .str s.NAMESPACE)]

/-- Re-encoder of a build event, on the keys of `decodeBuild`. -/
def encodeBuild (ev : CloudBuildInfo) : J :=
  .obj [("status", .str ev.Status), ("steps", .arr (ev.Steps.map encodeStep)),
        ("substitutions", encodeSubs ev.Substitutions)]

/-- Payload decode step of the callback (lines 49-53 of `main.go`):
`json.Unmarshal(msg.Data, &cloudBuildInfo)`. The inbound bytes are modelled
already parsed, as `Option J` with `none` for bytes that are not valid JSON.
On any error Go's `Unmarshal` leaves the target untouched, so the callback
continues with the zero-valued record; the error is only logged. -/
def decodePayload (raw : Option J) : Except String CloudBuildInfo :=
  match raw with
  | none => .error "invalid JSON payload"
  | some j =>
      match decodeBuild j with
      | some ev => .ok ev
      | none => .error "cannot unmarshal payload into CloudBuildInfo"

/-- Outcome of a Go function call: normal return, returned error, or a
runtime panic that propagates out of the function. -/
inductive GoOutcome (α : Type) where
  | ok (a : α)
  | err (e : String)
  | panicked (msg : String)
deriving DecidableEq, Repr

/-- GitHub HTTP response as the enricher sees it: the body, `none` when the
bytes are not valid JSON. -/
structure GithubResponse where
  body : Option J
deriving Inhabited

/-- Modelled from the spec: the `GithubInfo` struct declaration and its JSON
tags are not under `src/`; the response shape
`{ message, html_url, author:{name,email}, committer:{name,email} }` is spec
section 6. Like Go's `json.Unmarshal` into a struct, a missing field leaves
the zero value (field-type mismatches are also defaulted here). -/
def decodeGithub (j : J) : GithubInfo :=
  let user : Option J → GitUser := fun u =>
    match u with
    | some uj => ⟨(uj.getStr "name").getD "", (uj.getStr "email").getD ""⟩
    | none => ⟨"", ""⟩
  { Message := (j.getStr "message").getD ""
    HTML_URL := (j.getStr "html_url").getD ""
    Author := user (j.get "author")
    Committer := user (j.get "committer") }

/-- Commit enricher `GetGithubInfo` (lines 137-158 of `main.go`), over the
transport oracle `resp` (`none` = `client.Do` returns an error and a nil
response). The Go code runs `defer res.Body.Close()` before checking the
`client.Do` error, so on a transport error it dereferences the nil response
and panics; the error return paths are only reached once a response exists:
`ioutil.ReadAll` (abstracted as always succeeding on a live response) and
`json.Unmarshal`, which fails on a non-JSON body and returns `GithubInfo{}`
with the error. -/
def GetGithubInfo (resp : Option GithubResponse) : GoOutcome GithubInfo :=
  match resp with
  | none => .panicked "runtime error: invalid memory address or nil pointer dereference"
  | some r =>
      match r.body with
      | none => .err "invalid character in response body"
      | some j => .ok (decodeGithub j)

/-- Notifier `PushMessageToChatHangout` (lines 110-135 of `main.go`), over a
webhook transport oracle mapping the posted JSON body to `none` (transport
error from `client.Do`) or the response status code. `json.Marshal` of a
`map[string]string` cannot fail, and `http.NewRequest` succeeds for the
configured method and URL, so those error returns are unreachable. The
result is `.ok` exactly on status 200. -/
def PushMessageToChatHangout (message : String) (transport : J → Option Nat) :
    Except String Unit :=
  let payload : J := .obj [("text", .str message)]
  match transport payload with
  | none => .error "transport error"
  | some code =>
      if code ≠ 200 then .error "Push message to hangout failed "
      else .ok ()

/-- The two variables of `pullMsgs` that are declared outside the per-message
callback closure (line 42-45 of `main.go`) and therefore survive from one
callback invocation to the next. -/
structure LoopState where
  failureStep : String
  message : String
deriving DecidableEq, Repr, Inhabited

/-- Pipeline stages of the callback, in the order the Go statements run. -/
inductive Action where
  | ack
  | decode
  | locate
  | enrich
  | format
  | deliver
deriving DecidableEq, Repr

instance : DecidableEq (Except String Unit) := fun a b =>
  match a, b with
  | .ok (), .ok () => isTrue rfl
  | .error x, .error y =>
      if h : x = y then isTrue (by rw [h]) else isFalse (by intro hc; cases hc; exact h rfl)
  | .ok _, .error _ => isFalse (by intro hc; cases hc)
  | .error _, .ok _ => isFalse (by intro hc; cases hc)

/-- Result of one callback invocation: normal completion with the new values
of the shared variables, the message sent (if any) with the notifier's
result, and the stages run; or a panic escaping the callback. -/
inductive CallbackResult where
  | completed (s : LoopState) (sent : Option String)
      (pushRes : Option (Except String Unit)) (stages : List Action)
  | panicked (s : LoopState) (stages : List Action)
deriving DecidableEq, Repr

/-- Stages that ran during the callback, whether it completed or panicked. -/
def CallbackResult.stagesRun : CallbackResult → List Action
  | .completed _ _ _ st => st
  | .panicked _ st => st

/-- Message the callback handed to the notifier, `none` when nothing was
sent (including when the callback panicked before the send). -/
def CallbackResult.sentMessage : CallbackResult → Option String
  | .completed _ sent _ _ => sent
  | .panicked _ _ => none

/-- Values of the shared variables after the callback, when it completed. -/
def CallbackResult.finalState : CallbackResult → Option LoopState
  | .completed s _ _ _ => some s
  | .panicked _ _ => none

/-- Tail of the callback after enrichment (lines 63-103 of `main.go`): the
formatter assigns `message` or leaves it, then if `message` is nonempty it is
pushed (the notifier's error is logged and swallowed) and `message` is reset
to the empty string. The closing `mu.Lock(); defer mu.Unlock()` pair touches
no data and is not modelled. -/
def finishCallback (s : LoopState) (fs : String) (ev : CloudBuildInfo)
    (gh : GithubInfo) (push : J → Option Nat) : CallbackResult :=
  let message := (formatMessage ev fs gh).getD s.message
  if message = "" then
    .completed ⟨fs, message⟩ none none
      [.ack, .decode, .locate, .enrich, .format]
  else
    .completed ⟨fs, ""⟩ (some message) (some (PushMessageToChatHangout message push))
      [.ack, .decode, .locate, .enrich, .format, .deliver]

/-- One invocation of the `sub.Receive` callback (lines 47-103 of
`main.go`), from shared state `s`: `msg.Ack()` first, then decode (a failed
decode is logged and the zero-valued record is used), the failure-step loop
seeded with the shared `failureStep`, enrichment (a transport error panics
inside `GetGithubInfo` and the panic escapes the callback; a returned error
is logged and the zero-valued `GithubInfo` is used), then format and
deliver. -/
def runCallback (s : LoopState) (raw : Option J) (ghResp : Option GithubResponse)
    (push : J → Option Nat) : CallbackResult :=
  let ev : CloudBuildInfo := ((decodePayload raw).toOption).getD default
  let fs := locateFailureStepFrom s.failureStep ev.Steps
  match GetGithubInfo ghResp with
  | .panicked _ => .panicked ⟨fs, s.message⟩ [.ack, .decode, .locate, .enrich]
  | .err _ => finishCallback s fs ev default push
  | .ok gh => finishCallback s fs ev gh push

/-- One inbound message together with its world: the parsed payload (`none` =
invalid JSON bytes) and the GitHub transport's answer for this event. -/
structure InMsg where
  raw : Option J
  ghResp : Option GithubResponse
deriving Inhabited

/-- Sequential run of the receive loop over a list of messages: each callback
threads the shared variables to the next; a panic kills the process, so the
remaining messages are never processed. Returns the per-message sent
messages of the callbacks that ran. -/
def runLoop (push : J → Option Nat) : LoopState → List InMsg → List (Option String)
  | _, [] => []
  | s, m :: ms =>
      match runCallback s m.raw m.ghResp push with
      | .completed s' sent _ _ => sent :: runLoop push s' ms
      | .panicked _ _ => []

/-- Concrete GitHub oracle answer: a live response whose body is the empty
JSON object (every `GithubInfo` field decodes to its zero value). -/
def okGithubResponse : Option GithubResponse := some ⟨some (J.obj [])⟩

/-- Concrete webhook oracle that always answers with status 200. -/
def webhookOk : J → Option Nat := fun _ => some 200

/-- Concrete event: a failed step on a feature branch of an unknown repo, so
the formatter produces nothing, but the shared `failureStep` variable is
overwritten with `"build-step"`. -/
def eventWithFailureOffBranch : CloudBuildInfo :=
  ⟨"FAILURE", [⟨"build-step", "FAILURE"⟩], ⟨"sha1", "other", "feature", "prod"⟩⟩

/-- Concrete event: a `ProjectStrand` failure on `dev` whose own step list
contains no failing step. -/
def strandEventNoSteps : CloudBuildInfo :=
  ⟨"FAILURE", [], ⟨"sha2", "ProjectStrand", "dev", "prod"⟩⟩

/-- Concrete event: a `ProjectStrand` failure on `dev` in the `test`
namespace. -/
def strandTestEvent : CloudBuildInfo :=
  ⟨"FAILURE", [], ⟨"sha3", "ProjectStrand", "dev", "test"⟩⟩

/-- Concrete event: a `superset` success on `dev`. -/
def supersetDevEvent : CloudBuildInfo :=
  ⟨"SUCCESS", [], ⟨"sha4", "superset", "dev", "prod"⟩⟩

/-- Concrete commit metadata with distinct author and committer. -/
def sampleGh : GithubInfo :=
  ⟨"fix build", "https://example.com/c/abc",
   ⟨"Alice", "alice@example.com"⟩, ⟨"Bob", "bob@example.com"⟩⟩

/-- Concrete well-formed inbound payload, as in spec section 6. -/
def samplePayload : J :=
  .obj [("status", .str "SUCCESS"),
        ("steps", .arr [.obj [("id", .str "build"), ("status", .str "SUCCESS")],
                        .obj [("id", .str "deploy"), ("status", .str "FAILURE")]]),
        ("substitutions", .obj [("COMMIT_SHA", .str "abc"), ("REPO_NAME", .str "superset"),
                                ("BRANCH_NAME", .str "dev"), ("NAMESPACE", .str "prod")])]

/-- The build event `samplePayload` decodes to. -/
def samplePayloadEvent : CloudBuildInfo :=
  ⟨"SUCCESS", [⟨"build", "SUCCESS"⟩, ⟨"deploy", "FAILURE"⟩],
   ⟨"abc", "superset", "dev", "prod"⟩⟩

/-- The failure-locator loop computes the id of the last failing step of the
scanned list, and keeps the seed value when no step failed. -/
theorem locateFailureStepFrom_eq_getLast (steps : List Step) : ∀ init : String,
    locateFailureStepFrom init steps
      = (((steps.filter fun s => s.Status == "FAILURE").getLast?).map Step.ID).getD init := by
  induction steps with
  | nil => intro init; rfl
  | cons s rest ih =>
      intro init
      by_cases h : s.Status = "FAILURE"
      · simp only [locateFailureStepFrom, if_pos h, ih]
        rw [List.filter_cons, if_pos (by simp [h])]
        cases hl : (rest.filter fun s => s.Status == "FAILURE") with
        | nil => simp
        | cons t ts =>
            cases hx : (t :: ts).getLast? with
            | none => simp [List.getLast?_eq_none_iff] at hx
            | some x => simp [List.getLast?_cons_cons, hx]
      · simp only [locateFailureStepFrom, if_neg h, ih]
        rw [List.filter_cons, if_neg (by simp [h])]

/-- C1: the failure locator scans all steps without breaking and returns the
id of the last step with status FAILURE in sequence order (the last element
of the FAILURE-filtered list), and the empty string when no step has status
FAILURE; on the steps [{A,SUCCESS},{B,FAILURE},{C,FAILURE}] it returns "C". -/
theorem failure_locator_last_failure_wins :
    (∀ steps : List Step,
      locateFailureStep steps
        = (((steps.filter fun s => s.Status == "FAILURE").getLast?).map Step.ID).getD "")
    ∧ locateFailureStep [⟨"A", "SUCCESS"⟩, ⟨"B", "FAILURE"⟩, ⟨"C", "FAILURE"⟩] = "C" :=
  ⟨fun steps => locateFailureStepFrom_eq_getLast steps "", by decide⟩

/-- C2 (code bug): on a transport error from the GitHub GET, `GetGithubInfo`
does not return an error: `defer res.Body.Close()` runs before the
`client.Do` error is checked, dereferences the nil response and panics, and
the panic escapes the per-message callback, aborting the event. -/
theorem github_transport_error_panics :
    GetGithubInfo none
      = GoOutcome.panicked "runtime error: invalid memory address or nil pointer dereference"
    ∧ runCallback ⟨"", ""⟩ (some (encodeBuild samplePayloadEvent)) none webhookOk
      = CallbackResult.panicked ⟨"deploy", ""⟩ [.ack, .decode, .locate, .enrich] :=
  ⟨rfl, by decide⟩

/-- Whenever a callback completes, the shared `message` variable has been
reset to empty, and the shared `failureStep` variable holds the fold of the
event's steps seeded with its previous value. -/
theorem finishCallback_completed (s : LoopState) (fs : String) (ev : CloudBuildInfo)
    (gh : GithubInfo) (push : J → Option Nat) :
    ∀ s' sent pr st, finishCallback s fs ev gh push = .completed s' sent pr st →
      s'.message = "" ∧ s'.failureStep = fs := by
  intro s' sent pr st h
  simp only [finishCallback] at h
  split at h
  · cases h
    exact ⟨by assumption, rfl⟩
  · cases h
    exact ⟨rfl, rfl⟩

set_option maxRecDepth 8192 in
/-- C3 (counterexample): the failure-step identifier is not request-scoped.
A first event on a feature branch leaves `"build-step"` in the shared
`failureStep` variable; a second event whose own step list has no failing
step is then formatted differently than it would be from a fresh state: the
two-event run of the loop sends a message for the second event that embeds
the first event's failing step id. -/
theorem last_failure_step_not_request_scoped :
    (runCallback ⟨"", ""⟩ (some (encodeBuild eventWithFailureOffBranch))
        okGithubResponse webhookOk).finalState = some ⟨"build-step", ""⟩
    ∧ (runCallback ⟨"build-step", ""⟩ (some (encodeBuild strandEventNoSteps))
          okGithubResponse webhookOk).sentMessage
        ≠ (runCallback ⟨"", ""⟩ (some (encodeBuild strandEventNoSteps))
            okGithubResponse webhookOk).sentMessage
    ∧ runLoop webhookOk ⟨"", ""⟩
        [⟨some (encodeBuild eventWithFailureOffBranch), okGithubResponse⟩,
         ⟨some (encodeBuild strandEventNoSteps), okGithubResponse⟩]
      = [none,
         some ("Cloud build for *nightly* has been finished with status *FAILURE* at step *build-step*. Detail infomations: ```Repo: ProjectStrand\nBranch: dev\nCommit message: \nCommit Url: \nAuthor: ()\nCommitter:()\n```")] :=
  ⟨by decide, by decide, by decide⟩

/-- C3 (amended): request-scoping holds except for the two shared mutable
variables of `pullMsgs`: whenever a callback completes, the shared `message`
variable is empty again, but the shared `failureStep` variable holds the
failure-step fold of the processed event seeded with the value the previous
events left behind, so it persists into later events. -/
theorem shared_state_is_message_and_failure_step (s : LoopState) (raw : Option J)
    (ghResp : Option GithubResponse) (push : J → Option Nat) :
    ∀ s' sent pr st, runCallback s raw ghResp push = .completed s' sent pr st →
      s'.message = ""
      ∧ s'.failureStep
          = locateFailureStepFrom s.failureStep
              (((decodePayload raw).toOption.getD default).Steps) := by
  intro s' sent pr st h
  simp only [runCallback] at h
  split at h
  · exact absurd h (by simp)
  · exact finishCallback_completed _ _ _ _ _ _ _ _ _ h
  · exact finishCallback_completed _ _ _ _ _ _ _ _ _ h

/-- Witness for the amended C3 theorem at a concrete completed callback. -/
theorem shared_state_is_message_and_failure_step_witness :
    (⟨"build-step", ""⟩ : LoopState).message = ""
    ∧ (⟨"build-step", ""⟩ : LoopState).failureStep
        = locateFailureStepFrom ""
            (((decodePayload (some (encodeBuild eventWithFailureOffBranch))).toOption.getD
                default).Steps) :=
  shared_state_is_message_and_failure_step ⟨"", ""⟩
    (some (encodeBuild eventWithFailureOffBranch)) okGithubResponse webhookOk
    ⟨"build-step", ""⟩ none none
    [.ack, .decode, .locate, .enrich, .format] (by decide)

/-- A re-encoded step decodes back to itself. -/
theorem decodeStep_encodeStep (s : Step) : decodeStep (encodeStep s) = some s := rfl

/-- A re-encoded steps array decodes back to itself, element by element. -/
theorem decodeSteps_map_encodeStep (l : List Step) :
    decodeSteps (l.map encodeStep) = some l := by
  induction l with
  | nil => rfl
  | cons s rest ih => simp [decodeSteps, decodeStep_encodeStep, ih]

/-- A re-encoded substitutions block decodes back to itself. -/
theorem decodeSubs_encodeSubs (s : Substitutions) : decodeSubs (encodeSubs s) = some s := rfl

/-- A re-encoded build event decodes back to itself. -/
theorem decodeBuild_encodeBuild (ev : CloudBuildInfo) :
    decodeBuild (encodeBuild ev) = some ev := by
  calc decodeBuild (encodeBuild ev)
      = (match decodeSteps (ev.Steps.map encodeStep),
              decodeSubs (encodeSubs ev.Substitutions) with
        | some steps, some subs => some ⟨ev.Status, steps, subs⟩
        | _, _ => none) := rfl
    _ = some ev := by rw [decodeSteps_map_encodeStep, decodeSubs_encodeSubs]

/-- C4 (counterexample): a `ProjectStrand` build with status FAILURE and
namespace `test` but branch `feature` produces no message at all — the
branch gate of the formatter runs before the repo switch, so the build-type
label is not "regardless of branch". -/
theorem project_strand_test_failure_off_branch_silent :
    formatMessage ⟨"FAILURE", [], ⟨"sha", "ProjectStrand", "feature", "test"⟩⟩ "step1" sampleGh
      = none := by decide

/-- C4 (amended): for a `ProjectStrand` build whose branch is `dev` or
`master`, status FAILURE produces the message with the build-type label
"unit-testing" when the namespace is `test` (whichever of the two branches),
otherwise "nightly" on `dev`, otherwise "production"; any status other than
FAILURE produces no message for this repo, on any branch. -/
theorem project_strand_build_type_label (ev : CloudBuildInfo) (fs : String) (gh : GithubInfo)
    (hrepo : ev.Substitutions.REPONAME = "ProjectStrand") :
    ((ev.Substitutions.BRANCHNAME = "dev" ∨ ev.Substitutions.BRANCHNAME = "master") →
      ev.Status = "FAILURE" →
        formatMessage ev fs gh = some (projectStrandMessage (buildType ev) ev fs gh)
        ∧ (ev.Substitutions.NAMESPACE = "test" → buildType ev = "unit-testing")
        ∧ (ev.Substitutions.NAMESPACE ≠ "test" → ev.Substitutions.BRANCHNAME = "dev" →
            buildType ev = "nightly")
        ∧ (ev.Substitutions.NAMESPACE ≠ "test" → ev.Substitutions.BRANCHNAME ≠ "dev" →
            buildType ev = "production"))
    ∧ (ev.Status ≠ "FAILURE" → formatMessage ev fs gh = none) := by
  constructor
  · intro hbr hst
    refine ⟨?_, ?_, ?_, ?_⟩
    · simp only [formatMessage]
      rw [if_pos hbr, hrepo, hst]
      rfl
    · intro hns
      simp only [buildType]
      rw [if_pos hns]
    · intro hns hdev
      simp only [buildType]
      rw [if_neg hns, if_pos hdev]
    · intro hns hdev
      simp only [buildType]
      rw [if_neg hns, if_neg hdev]
  · intro hst
    by_cases hbr : ev.Substitutions.BRANCHNAME = "dev" ∨ ev.Substitutions.BRANCHNAME = "master"
    · simp only [formatMessage]
      rw [if_pos hbr, hrepo]
      show (if ev.Status = "FAILURE" then _ else none) = none
      rw [if_neg hst]
    · simp only [formatMessage]
      rw [if_neg hbr]

/-- Witness for the amended C4 theorem: a `ProjectStrand` failure on `dev`
in the `test` namespace yields the message with label "unit-testing". -/
theorem project_strand_build_type_label_witness :
    formatMessage strandTestEvent "step1" sampleGh
      = some (projectStrandMessage (buildType strandTestEvent) strandTestEvent "step1" sampleGh)
    ∧ buildType strandTestEvent = "unit-testing" := by
  have h := (project_strand_build_type_label strandTestEvent "step1" sampleGh rfl).1
    (Or.inl rfl) rfl
  exact ⟨h.1, h.2.1 rfl⟩

/-- When the formatter leaves the `message` variable alone and its previous
value is empty, the callback sends nothing. -/
theorem finishCallback_sent_none (s : LoopState) (fs : String) (ev : CloudBuildInfo)
    (gh : GithubInfo) (push : J → Option Nat) (hfm : formatMessage ev fs gh = none)
    (hsm : s.message = "") :
    (finishCallback s fs ev gh push).sentMessage = none := by
  simp [finishCallback, hfm, hsm, CallbackResult.sentMessage]

/-- C5: an event whose branch is neither `dev` nor `master` produces no
message whatever its repo and status, and (from a state where the shared
`message` variable is empty, as it is between sequential callbacks) the
callback sends nothing for it. -/
theorem off_branch_produces_no_message (ev : CloudBuildInfo) (fs : String) (gh : GithubInfo)
    (hdev : ev.Substitutions.BRANCHNAME ≠ "dev")
    (hmaster : ev.Substitutions.BRANCHNAME ≠ "master") :
    formatMessage ev fs gh = none
    ∧ ∀ (s : LoopState) (ghResp : Option GithubResponse) (push : J → Option Nat),
        s.message = "" →
        (runCallback s (some (encodeBuild ev)) ghResp push).sentMessage = none := by
  have hfm : ∀ (fs' : String) (gh' : GithubInfo), formatMessage ev fs' gh' = none := by
    intro fs' gh'
    simp only [formatMessage]
    rw [if_neg (not_or.mpr ⟨hdev, hmaster⟩)]
  refine ⟨hfm fs gh, ?_⟩
  intro s ghResp push hsm
  have hev : ((decodePayload (some (encodeBuild ev))).toOption).getD default = ev := by
    simp [decodePayload, decodeBuild_encodeBuild, Except.toOption]
  simp only [runCallback, hev]
  cases hg : GetGithubInfo ghResp with
  | panicked m => rfl
  | err e => exact finishCallback_sent_none _ _ _ _ _ (hfm _ _) hsm
  | ok g => exact finishCallback_sent_none _ _ _ _ _ (hfm _ _) hsm

/-- Witness for C5 at a concrete feature-branch event. -/
theorem off_branch_produces_no_message_witness :
    formatMessage eventWithFailureOffBranch "x" sampleGh = none
    ∧ (runCallback ⟨"", ""⟩ (some (encodeBuild eventWithFailureOffBranch))
        okGithubResponse webhookOk).sentMessage = none := by
  have h := off_branch_produces_no_message eventWithFailureOffBranch "x" sampleGh
    (by decide) (by decide)
  exact ⟨h.1, h.2 ⟨"", ""⟩ okGithubResponse webhookOk rfl⟩

/-- C6: a `superset` success on `dev` or `master` produces the success
template, which contains the literal substring "dev-nightly" and the author
and committer name/email pairs exactly as supplied in the enriched commit
data. -/
theorem superset_success_message_contents (ev : CloudBuildInfo) (fs : String) (gh : GithubInfo)
    (hrepo : ev.Substitutions.REPONAME = "superset") (hst : ev.Status = "SUCCESS")
    (hbr : ev.Substitutions.BRANCHNAME = "dev" ∨ ev.Substitutions.BRANCHNAME = "master") :
    formatMessage ev fs gh = some (supersetSuccessMessage ev gh)
    ∧ (∃ a b, supersetSuccessMessage ev gh = a ++ "dev-nightly" ++ b)
    ∧ (∃ a b, supersetSuccessMessage ev gh
        = a ++ (gh.Author.Name ++ "(" ++ gh.Author.Email ++ ")") ++ b)
    ∧ (∃ a b, supersetSuccessMessage ev gh
        = a ++ (gh.Committer.Name ++ "(" ++ gh.Committer.Email ++ ")") ++ b) := by
  refine ⟨?_, ?_, ?_, ?_⟩
  · simp only [formatMessage]
    rw [if_pos hbr, hrepo, hst]
    rfl
  · exact ⟨"The new version of *actable-dev* was available in https://",
      ".actable.ai. Detail infomations: " ++ detailBlock ev gh, by
        simp only [supersetSuccessMessage, String.append_assoc]⟩
  · exact ⟨"The new version of *actable-dev* was available in https://" ++ "dev-nightly" ++
      ".actable.ai. Detail infomations: " ++ "```Repo: " ++ ev.Substitutions.REPONAME ++
      "\nBranch: " ++ ev.Substitutions.BRANCHNAME ++ "\nCommit message: " ++ gh.Message ++
      "\nCommit Url: " ++ gh.HTML_URL ++ "\nAuthor: ",
      "\nCommitter:" ++ (gh.Committer.Name ++ "(" ++ gh.Committer.Email ++ ")") ++ "\n```", by
        simp only [supersetSuccessMessage, detailBlock, String.append_assoc]⟩
  · exact ⟨"The new version of *actable-dev* was available in https://" ++ "dev-nightly" ++
      ".actable.ai. Detail infomations: " ++ "```Repo: " ++ ev.Substitutions.REPONAME ++
      "\nBranch: " ++ ev.Substitutions.BRANCHNAME ++ "\nCommit message: " ++ gh.Message ++
      "\nCommit Url: " ++ gh.HTML_URL ++ "\nAuthor: " ++
      (gh.Author.Name ++ "(" ++ gh.Author.Email ++ ")") ++ "\nCommitter:",
      "\n```", by
        simp only [supersetSuccessMessage, detailBlock, String.append_assoc]⟩

/-- Witness for C6 at a concrete `superset` success on `dev`. -/
theorem superset_success_message_contents_witness :
    formatMessage supersetDevEvent "x" sampleGh
      = some (supersetSuccessMessage supersetDevEvent sampleGh) :=
  (superset_success_message_contents supersetDevEvent "x" sampleGh rfl rfl (Or.inl rfl)).1

/-- C7: the notifier succeeds exactly when the webhook transport delivers the
posted body and answers with status 200; a transport error or any other
status (500 in particular) yields the delivery error. -/
theorem notifier_delivery_error_iff_not_200 :
    (∀ (m : String) (transport : J → Option Nat),
      PushMessageToChatHangout m transport = Except.ok ()
        ↔ transport (J.obj [("text", J.str m)]) = some 200)
    ∧ PushMessageToChatHangout "x" (fun _ => some 500)
        = Except.error "Push message to hangout failed "
    ∧ PushMessageToChatHangout "x" (fun _ => none) = Except.error "transport error"
    ∧ PushMessageToChatHangout "x" (fun _ => some 200) = Except.ok () := by
  refine ⟨?_, rfl, rfl, rfl⟩
  intro m transport
  simp only [PushMessageToChatHangout]
  cases h : transport (J.obj [("text", J.str m)]) with
  | none => simp
  | some code =>
      by_cases h200 : code = 200
      · subst h200
        simp
      · simp [h200]

/-- Both exits of the post-enrichment tail start with the acknowledgment
stage and never acknowledge again. -/
theorem finishCallback_stages (s : LoopState) (fs : String) (ev : CloudBuildInfo)
    (gh : GithubInfo) (push : J → Option Nat) :
    ∃ rest, (finishCallback s fs ev gh push).stagesRun = Action.ack :: rest
      ∧ Action.ack ∉ rest := by
  simp only [finishCallback]
  split
  · exact ⟨[.decode, .locate, .enrich, .format], rfl, by decide⟩
  · exact ⟨[.decode, .locate, .enrich, .format, .deliver], rfl, by decide⟩

/-- C8: every callback invocation acknowledges the message first —
whatever the inputs and however far the callback gets, the stages run start
with the acknowledgment, before decode, locate, enrich, format and deliver,
and acknowledgment never recurs after (or conditionally on) them. -/
theorem ack_runs_before_any_processing (s : LoopState) (raw : Option J)
    (ghResp : Option GithubResponse) (push : J → Option Nat) :
    ∃ rest, (runCallback s raw ghResp push).stagesRun = Action.ack :: rest
      ∧ Action.ack ∉ rest := by
  simp only [runCallback]
  cases GetGithubInfo ghResp with
  | panicked m => exact ⟨[.decode, .locate, .enrich], rfl, by decide⟩
  | err e => exact finishCallback_stages _ _ _ _ _
  | ok gh => exact finishCallback_stages _ _ _ _ _

/-- The post-enrichment tail always completes: it never panics and never
stops the receive loop. -/
theorem finishCallback_is_completed (s : LoopState) (fs : String) (ev : CloudBuildInfo)
    (gh : GithubInfo) (push : J → Option Nat) :
    ∃ s' sent pr st, finishCallback s fs ev gh push = .completed s' sent pr st := by
  simp only [finishCallback]
  split
  · exact ⟨_, _, _, _, rfl⟩
  · exact ⟨_, _, _, _, rfl⟩

/-- As long as the GitHub transport produces a response, the callback
completes: only the nil-response panic of `GetGithubInfo` can abort it. -/
theorem runCallback_completed_of_live_response (s : LoopState) (raw : Option J)
    (r : GithubResponse) (push : J → Option Nat) :
    ∃ s' sent pr st, runCallback s raw (some r) push = .completed s' sent pr st := by
  simp only [runCallback, GetGithubInfo]
  cases r.body with
  | none => exact finishCallback_is_completed _ _ _ _ _
  | some j => exact finishCallback_is_completed _ _ _ _ _

/-- C9: a payload that is not valid JSON makes the decoder fail with the
decode error, and the failure is non-fatal: the callback behaves exactly as
if the payload had decoded to the zero-valued build event, it completes
(no panic), and the receive loop goes on to the next message. -/
theorem invalid_json_decode_nonfatal :
    decodePayload none = Except.error "invalid JSON payload"
    ∧ ∀ (s : LoopState) (r : GithubResponse) (push : J → Option Nat),
        runCallback s none (some r) push
          = runCallback s (some (encodeBuild default)) (some r) push
        ∧ ∃ s' sent pr st,
            runCallback s none (some r) push = .completed s' sent pr st
            ∧ ∀ ms, runLoop push s (⟨none, some r⟩ :: ms) = sent :: runLoop push s' ms := by
  refine ⟨rfl, ?_⟩
  intro s r push
  have hev : ((decodePayload (some (encodeBuild (default : CloudBuildInfo)))).toOption).getD
      default = (default : CloudBuildInfo) := by
    simp [decodePayload, decodeBuild_encodeBuild, Except.toOption]
  have hev0 : ((decodePayload none).toOption).getD default = (default : CloudBuildInfo) := rfl
  constructor
  · simp only [runCallback, hev, hev0]
  · obtain ⟨s', sent, pr, st, h⟩ := runCallback_completed_of_live_response s none r push
    refine ⟨s', sent, pr, st, h, ?_⟩
    intro ms
    simp only [runLoop, h]

/-- A well-formed step object yields its id and status fields. -/
theorem decodeStep_proj (x : J) (s : Step) (h : decodeStep x = some s) :
    x.getStr "id" = some s.ID ∧ x.getStr "status" = some s.Status := by
  simp only [decodeStep] at h
  split at h
  · cases h
    constructor <;> assumption
  · cases h

/-- A well-formed steps array projects, element by element and in order, to
the id/status pairs of the decoded steps. -/
theorem decodeSteps_proj (xs : List J) : ∀ steps, decodeSteps xs = some steps →
    xs.map (fun x => (x.getStr "id", x.getStr "status"))
      = steps.map (fun s => (some s.ID, some s.Status)) := by
  induction xs with
  | nil =>
      intro steps h
      cases h
      rfl
  | cons x rest ih =>
      intro steps h
      simp only [decodeSteps] at h
      split at h
      · cases h
        rename_i s rest' hx hr
        have hp := decodeStep_proj x s hx
        simp only [List.map_cons, hp.1, hp.2, ih rest' hr]
      · cases h

/-- A re-encoded steps list projects to the same id/status pairs. -/
theorem encodeSteps_proj (l : List Step) :
    (l.map encodeStep).map (fun x => (x.getStr "id", x.getStr "status"))
      = l.map (fun s => (some s.ID, some s.Status)) := by
  rw [List.map_map]
  rfl

/-- A well-formed substitutions object yields its four fields. -/
theorem decodeSubs_proj (sj : J) (subs : Substitutions) (h : decodeSubs sj = some subs) :
    sj.getStr "COMMIT_SHA" = some subs.COMMITSHA
    ∧ sj.getStr "REPO_NAME" = some subs.REPONAME
    ∧ sj.getStr "BRANCH_NAME" = some subs.BRANCHNAME
    ∧ sj.getStr "NAMESPACE" = some subs.NAMESPACE := by
  simp only [decodeSubs] at h
  split at h
  · cases h
    refine ⟨?_, ?_, ?_, ?_⟩ <;> assumption
  · cases h

/-- C10: decoding a well-formed payload and re-encoding the result preserves
the status field, the steps list (ids and statuses in order) and the four
substitutions fields; moreover the re-encoded payload decodes back to the
same build event. -/
theorem decode_encode_preserves_fields (p : J) (ev : CloudBuildInfo)
    (h : decodeBuild p = some ev) :
    decodeBuild (encodeBuild ev) = some ev
    ∧ (encodeBuild ev).getStr "status" = p.getStr "status"
    ∧ (∃ xs, p.get "steps" = some (J.arr xs)
        ∧ (encodeBuild ev).get "steps" = some (J.arr (ev.Steps.map encodeStep))
        ∧ xs.map (fun x => (x.getStr "id", x.getStr "status"))
            = (ev.Steps.map encodeStep).map (fun x => (x.getStr "id", x.getStr "status")))
    ∧ (∃ sj, p.get "substitutions" = some sj
        ∧ (encodeBuild ev).get "substitutions" = some (encodeSubs ev.Substitutions)
        ∧ (encodeSubs ev.Substitutions).getStr "COMMIT_SHA" = sj.getStr "COMMIT_SHA"
        ∧ (encodeSubs ev.Substitutions).getStr "REPO_NAME" = sj.getStr "REPO_NAME"
        ∧ (encodeSubs ev.Substitutions).getStr "BRANCH_NAME" = sj.getStr "BRANCH_NAME"
        ∧ (encodeSubs ev.Substitutions).getStr "NAMESPACE" = sj.getStr "NAMESPACE") := by
  simp only [decodeBuild] at h
  split at h
  · rename_i st xs sj hst hsteps hsubs
    split at h
    · rename_i steps subs hdsteps hdsubs
      cases h
      refine ⟨decodeBuild_encodeBuild _, ?_, ?_, ?_⟩
      · rw [hst]
        rfl
      · refine ⟨xs, hsteps, rfl, ?_⟩
        rw [encodeSteps_proj, decodeSteps_proj xs _ hdsteps]
      · obtain ⟨h1, h2, h3, h4⟩ := decodeSubs_proj sj _ hdsubs
        exact ⟨sj, hsubs, rfl, by rw [h1]; rfl, by rw [h2]; rfl, by rw [h3]; rfl,
          by rw [h4]; rfl⟩
    · cases h
  · cases h

/-- Witness for C10 at a concrete well-formed payload. -/
theorem decode_encode_preserves_fields_witness :
    decodeBuild (encodeBuild samplePayloadEvent) = some samplePayloadEvent
    ∧ (encodeBuild samplePayloadEvent).getStr "status" = samplePayload.getStr "status" := by
  have h := decode_encode_preserves_fields samplePayload samplePayloadEvent (by decide)
  exact ⟨h.1, h.2.1⟩

end CloudBuildNotifier
